import Mathlib

/-!
Verification of the job-signals runner (src/run_jobs.py) against its
specification.  The Python source is shallowly embedded: dictionaries become
association lists over a small JSON-like value type, external HTTP effects
(Apify, Supabase) become explicit function parameters, and the ambient clock
becomes an explicit `now` argument.
-/

set_option maxRecDepth 40000

namespace JobSignals

/-- JSON-like values, the model of Python objects that flow through the
script (dict entries, Apify item fields, Supabase row fields). -/
inductive JVal where
  | jnull  : JVal
  | jbool  : Bool → JVal
  | jnum   : Int → JVal
  | jstr   : String → JVal
  | jarr   : List JVal → JVal
  | jobj   : List (String × JVal) → JVal

/-- A Python dict with string keys, modelled as an association list in
insertion order (Python dicts preserve insertion order). -/
abbrev Row := List (String × JVal)

/-- Python truthiness (`bool(v)`) for the values we model. -/
def pyTruthy : JVal → Bool
  | JVal.jnull    => false
  | JVal.jbool b  => b
  | JVal.jnum n   => n != 0
  | JVal.jstr s   => s != ""
  | JVal.jarr l   => !l.isEmpty
  | JVal.jobj l   => !l.isEmpty

/-- Python `a or b`: `a` when truthy, else `b`. -/
def pyOr (a b : JVal) : JVal := if pyTruthy a then a else b

/-- Python `str(v)` restricted to the scalar values that actually reach the
string-interpolation sites of the script (ids, urls, titles are scalars;
`str` of a list or dict is a repr that no claim exercises). -/
def pyStr : JVal → String
  | JVal.jnull       => "None"
  | JVal.jbool true  => "True"
  | JVal.jbool false => "False"
  | JVal.jnum n      => toString n
  | JVal.jstr s      => s
  | JVal.jarr _      => "<list>"
  | JVal.jobj _      => "<dict>"

/-- Python `d.get(k)` on a dict: first binding of `k`, else `None`. -/
def rowGet (r : Row) (k : String) : JVal :=
  match r with
  | [] => JVal.jnull
  | (k2, v) :: rest => if k2 = k then v else rowGet rest k

/-- Python `k in d` on a dict. -/
def hasKey (r : Row) (k : String) : Bool :=
  match r with
  | [] => false
  | (k2, _) :: rest => if k2 = k then true else hasKey rest k

/-- Python `d[k] = v`: overwrite in place when the key exists (its position
is kept), append otherwise. -/
def rowSet (r : Row) (k : String) (v : JVal) : Row :=
  match r with
  | [] => [(k, v)]
  | (k2, w) :: rest => if k2 = k then (k2, v) :: rest else (k2, w) :: rowSet rest k v

/-- Chunking with explicit fuel, so that the definition is structural and
evaluates in the kernel.  With fuel at least `l.length` this is Python
`[l[i:i+n] for i in range(0, len(l), n)]`. -/
def chunksOfAux (n : Nat) : Nat → List α → List (List α)
  | 0, _ => []
  | _, [] => []
  | fuel + 1, l => l.take n :: chunksOfAux n fuel (l.drop n)

/-- Python slicing loop `for i in range(0, len(l), n): l[i:i+n]`. -/
def chunksOf (n : Nat) (l : List α) : List (List α) :=
  chunksOfAux n l.length l

/-- First occurrence split: `splitFirst sep l = some (before, after)` when
`sep` occurs in `l`, with `after` the remainder past the first occurrence.
Models Python `text.split(sep, 1)` having found a separator. -/
def splitFirst (sep : List Char) : List Char → Option (List Char × List Char)
  | [] => if sep.isPrefixOf ([] : List Char) then some ([], []) else none
  | c :: cs =>
    if sep.isPrefixOf (c :: cs) then some ([], (c :: cs).drop sep.length)
    else (splitFirst sep cs).map (fun p => (c :: p.1, p.2))

/-- Python `sub in text` (substring containment). -/
def containsSub (text sub : String) : Bool :=
  (splitFirst sub.data text.data).isSome

/-- Python `s.strip()` on the character list of a string. -/
def stripChars (l : List Char) : List Char :=
  ((l.dropWhile Char.isWhitespace).reverse.dropWhile Char.isWhitespace).reverse

/-- The apostrophe character, used by the PostgREST error message format. -/
def aposChar : Char := Char.ofNat 39

/-- Lexicographic comparison of character lists by code point, the order
Python uses to compare strings. -/
def listLeB : List Char → List Char → Bool
  | [], _ => true
  | _ :: _, [] => false
  | a :: as, b :: bs =>
    if a.toNat < b.toNat then true
    else if b.toNat < a.toNat then false
    else listLeB as bs

/-- Python string `<=` (lexicographic by code point), as a Bool. -/
def strLeB (a b : String) : Bool := listLeB a.data b.data

/-- Python string `<=` as a relation, for use with `List.insertionSort`. -/
def strLe (a b : String) : Prop := strLeB a b = true

instance : DecidableRel strLe :=
  fun a b => inferInstanceAs (Decidable (strLeB a b = true))

/-- Python `sorted` on a list of strings. -/
def pySorted (l : List String) : List String := List.insertionSort strLe l

/-! ### SHA-1 and name-based UUIDs

`map_job_item_to_row` derives its stable identifier with
`uuid.uuid5(uuid.NAMESPACE_URL, seed)`, which is SHA-1 over the namespace
bytes followed by the UTF-8 bytes of the seed, truncated to 16 bytes with
version and variant bits set, rendered as lowercase hex with dashes.  The
hash is embedded faithfully; machine words are `Nat` reduced mod `2 ^ 32`. -/

/-- 32-bit left rotation on a `Nat` holding a 32-bit word. -/
def rotl32 (n x : Nat) : Nat := ((x <<< n) ||| (x >>> (32 - n))) % 2 ^ 32

/-- SHA-1 round function (complement is xor with the all-ones word). -/
def sha1f (i b c d : Nat) : Nat :=
  if i < 20 then (b &&& c) ||| ((b ^^^ 0xFFFFFFFF) &&& d)
  else if i < 40 then b ^^^ c ^^^ d
  else if i < 60 then (b &&& c) ||| (b &&& d) ||| (c &&& d)
  else b ^^^ c ^^^ d

/-- SHA-1 round constants. -/
def sha1k (i : Nat) : Nat :=
  if i < 20 then 0x5A827999
  else if i < 40 then 0x6ED9EBA1
  else if i < 60 then 0x8F1BBCDC
  else 0xCA62C1D6

/-- Big-endian 32-bit words from bytes. -/
def wordsOfBytes (bs : List Nat) : List Nat :=
  (chunksOf 4 bs).map (fun c => c.foldl (fun acc b => acc * 256 + b) 0)

/-- Big-endian bytes of a 32-bit word. -/
def bytesOfWord (w : Nat) : List Nat :=
  [w / 2 ^ 24 % 256, w / 2 ^ 16 % 256, w / 2 ^ 8 % 256, w % 256]

/-- Message-schedule extension: append `k` further words, each the 1-rotation
of the xor of the words 3, 8, 14 and 16 positions back. -/
def sha1Extend (w : List Nat) : Nat → List Nat
  | 0 => w
  | k + 1 =>
    let n := w.length
    let nw := rotl32 1 ((w.getD (n - 3) 0) ^^^ (w.getD (n - 8) 0) ^^^
                        (w.getD (n - 14) 0) ^^^ (w.getD (n - 16) 0))
    sha1Extend (w ++ [nw]) k

/-- The 80 compression rounds over one block's schedule. -/
def sha1Rounds : List Nat → Nat → Nat × Nat × Nat × Nat × Nat → Nat × Nat × Nat × Nat × Nat
  | [], _, st => st
  | w :: ws, i, (a, b, c, d, e) =>
    let t := (rotl32 5 a + sha1f i b c d + e + sha1k i + w) % 2 ^ 32
    sha1Rounds ws (i + 1) (t, a, rotl32 30 b, c, d)

/-- One 64-byte block folded into the running hash state. -/
def sha1Block (h : Nat × Nat × Nat × Nat × Nat) (block : List Nat) :
    Nat × Nat × Nat × Nat × Nat :=
  let w := sha1Extend (wordsOfBytes block) 64
  let (h0, h1, h2, h3, h4) := h
  let (a, b, c, d, e) := sha1Rounds w 0 h
  ((h0 + a) % 2 ^ 32, (h1 + b) % 2 ^ 32, (h2 + c) % 2 ^ 32,
   (h3 + d) % 2 ^ 32, (h4 + e) % 2 ^ 32)

/-- Big-endian 64-bit length field. -/
def bytesBE8 (n : Nat) : List Nat :=
  [n / 2 ^ 56 % 256, n / 2 ^ 48 % 256, n / 2 ^ 40 % 256, n / 2 ^ 32 % 256,
   n / 2 ^ 24 % 256, n / 2 ^ 16 % 256, n / 2 ^ 8 % 256, n % 256]

/-- SHA-1 padding: `0x80`, zeros to 56 mod 64, then the bit length. -/
def sha1Pad (msg : List Nat) : List Nat :=
  let L := msg.length
  let r := (L + 9) % 64
  let zeros := if r = 0 then 0 else 64 - r
  msg ++ [128] ++ List.replicate zeros 0 ++ bytesBE8 (8 * L)

/-- SHA-1 of a byte sequence, as 20 bytes. -/
def sha1 (msg : List Nat) : List Nat :=
  let blocks := chunksOf 64 (sha1Pad msg)
  let st := blocks.foldl sha1Block
    (0x67452301, 0xEFCDAB89, 0x98BADCFE, 0x10325476, 0xC3D2E1F0)
  let (h0, h1, h2, h3, h4) := st
  bytesOfWord h0 ++ bytesOfWord h1 ++ bytesOfWord h2 ++ bytesOfWord h3 ++ bytesOfWord h4

/-- UTF-8 bytes of a string (`name.encode("utf-8")` in the uuid module). -/
def strBytes (s : String) : List Nat := s.toUTF8.toList.map UInt8.toNat

/-- The sixteen bytes of `uuid.NAMESPACE_URL`
(6ba7b811-9dad-11d1-80b4-00c04fd430c8). -/
def NAMESPACE_URL : List Nat :=
  [0x6b, 0xa7, 0xb8, 0x11, 0x9d, 0xad, 0x11, 0xd1,
   0x80, 0xb4, 0x00, 0xc0, 0x4f, 0xd4, 0x30, 0xc8]

/-- Version 5 and RFC 4122 variant bits applied to a 16-byte value. -/
def setVersionVariant (bs : List Nat) : List Nat :=
  bs.take 6 ++ [bs.getD 6 0 % 16 + 0x50] ++ (bs.drop 7).take 1 ++
    [bs.getD 8 0 % 64 + 0x80] ++ bs.drop 9

/-- Lowercase hex digit. -/
def hexDigitChar (n : Nat) : Char :=
  if n < 10 then Char.ofNat (48 + n) else Char.ofNat (87 + n)

/-- Two lowercase hex digits of a byte. -/
def byteHex (b : Nat) : List Char := [hexDigitChar (b / 16 % 16), hexDigitChar (b % 16)]

/-- Lowercase hex string of a byte sequence. -/
def hexOf (bs : List Nat) : String := String.mk (bs.flatMap byteHex)

/-- The canonical 8-4-4-4-12 text form of a 16-byte UUID value. -/
def uuidFormat (bs : List Nat) : String :=
  hexOf (bs.take 4) ++ "-" ++ hexOf ((bs.drop 4).take 2) ++ "-" ++
    hexOf ((bs.drop 6).take 2) ++ "-" ++ hexOf ((bs.drop 8).take 2) ++ "-" ++
    hexOf (bs.drop 10)

/-- Python `str(uuid.uuid5(uuid.NAMESPACE_URL, name))`. -/
def uuid5str (name : String) : String :=
  uuidFormat (setVersionVariant ((sha1 (NAMESPACE_URL ++ strBytes name)).take 16))

/-! ### Embedding of src/run_jobs.py

External HTTP effects become explicit parameters: the success of a Supabase
PATCH becomes a `patchOk` predicate, the response to a signals POST becomes a
`post` function returning an `HResp` (the `ok` flag and body text of a
`requests` response), and the clock becomes a `now : String` argument. -/

/-- The `ok` flag and body text of an HTTP response (`r.ok`, `r.text`). -/
structure HResp where
  ok : Bool
  text : String

/-- The primary key column name of `job_posts` (`JOB_ID_COL = "id"`,
src/run_jobs.py line 22). -/
def JOB_ID_COL : String := "id"

/-- Embeds `safe_dt` (src/run_jobs.py lines 198-204).  The external
`dateutil.parser.isoparse`-then-format pipeline is the parameter `parse`;
a `none` result models the `except` branch.  A falsy input (Python
`if not s`) and any parse failure give `None`. -/
def safe_dt (parse : String → Option String) (s : Option String) : Option String :=
  match s with
  | none => none
  | some str => if str = "" then none else parse str

/-- The identity seed of `map_job_item_to_row` (src/run_jobs.py line 217):
`f"{company}::{job_id or job_url}"` where `job_id = item.get("id")` and
`job_url = item.get("url") or ""`. -/
def seedOf (company : String) (item : Row) : String :=
  company ++ "::" ++ pyStr (pyOr (rowGet item "id") (pyOr (rowGet item "url") (JVal.jstr "")))

/-- The Identity Resolver: the stable identifier of src/run_jobs.py line 218,
`str(uuid.uuid5(uuid.NAMESPACE_URL, seed))`. -/
def identityResolver (company : String) (item : Row) : String :=
  uuid5str (seedOf company item)

/-- Embeds `map_job_item_to_row` (src/run_jobs.py lines 212-241).  `now` is
the value of `datetime.now(timezone.utc).isoformat()` taken inside the
function.  A truthy non-list `countries_derived` or `locations_derived`
would raise in Python at the index access; items are JSON so these fields
are lists or absent, and only those shapes are modelled. -/
def map_job_item_to_row (company now : String) (item : Row) : Row :=
  let uid := identityResolver company item
  let countries := pyOr (rowGet item "countries_derived") (JVal.jarr [])
  let locations := pyOr (rowGet item "locations_derived") (JVal.jarr [])
  let loc : JVal :=
    match locations with
    | JVal.jarr (JVal.jobj l0 :: _) =>
      let parts := [rowGet l0 "city", rowGet l0 "admin", rowGet l0 "country"].filter pyTruthy
      if parts.isEmpty then JVal.jnull
      else JVal.jstr (String.intercalate ", " (parts.map pyStr))
    | _ => JVal.jnull
  let country : JVal :=
    if pyTruthy countries then
      match countries with
      | JVal.jarr (x :: _) => x
      | _ => JVal.jnull
    else JVal.jnull
  [(JOB_ID_COL, JVal.jstr uid),
   ("job_uid", JVal.jstr uid),
   ("company", JVal.jstr company),
   ("title", pyOr (rowGet item "title") (JVal.jstr "(no title)")),
   ("location", loc),
   ("country", country),
   ("first_seen_at", JVal.jstr now),
   ("last_seen_at", JVal.jstr now),
   ("is_active", JVal.jbool true)]

/-- Embeds `build_new_job_signal` (src/run_jobs.py lines 244-261). -/
def build_new_job_signal (company now : String) (job_row : Row) : Row :=
  let title := rowGet job_row "title"
  let loc := rowGet job_row "location"
  let job_id := pyStr (pyOr (rowGet job_row "job_uid") (rowGet job_row JOB_ID_COL))
  [("account_name", JVal.jstr company),
   ("company", JVal.jstr company),
   ("signal_type", JVal.jstr "NEW_JOB"),
   ("type", JVal.jstr "NEW_JOB"),
   ("title", JVal.jstr (company ++ " posted: " ++ pyStr title ++
      (if pyTruthy loc then " (" ++ pyStr loc ++ ")" else ""))),
   ("occurred_at", JVal.jstr now),
   ("strength_score", JVal.jnum 40),
   ("source_url", JVal.jnull),
   ("metadata", JVal.jobj [("job_id", JVal.jstr job_id), ("title", title), ("location", loc)]),
   ("job_uid", JVal.jstr job_id)]

/-- Embeds `build_removed_job_signal` (src/run_jobs.py lines 264-277). -/
def build_removed_job_signal (company now : String) (job_id : String) : Row :=
  [("account_name", JVal.jstr company),
   ("company", JVal.jstr company),
   ("signal_type", JVal.jstr "JOB_REMOVED"),
   ("type", JVal.jstr "JOB_REMOVED"),
   ("title", JVal.jstr (company ++ " job removed/expired: " ++ job_id)),
   ("occurred_at", JVal.jstr now),
   ("strength_score", JVal.jnum 25),
   ("source_url", JVal.jnull),
   ("metadata", JVal.jobj [("job_id", JVal.jstr job_id)]),
   ("job_uid", JVal.jstr job_id)]

/-- The PostgREST missing-column marker, `"Could not find the '"`
(src/run_jobs.py line 122), built without an apostrophe literal. -/
def missingColMarker : List Char := "Could not find the ".data ++ [aposChar]

/-- Embeds `_extract_missing_column_name` (src/run_jobs.py lines 117-127):
text after the marker, up to the next apostrophe, stripped; empty gives
`None`. -/
def extract_missing_column_name (resp_text : String) : Option String :=
  match splitFirst missingColMarker resp_text.data with
  | none => none
  | some (_, after) =>
    let col := stripChars (after.takeWhile (fun c => c ≠ aposChar))
    if col.isEmpty then none else some (String.mk col)

/-- Embeds `_prune_rows` (src/run_jobs.py lines 130-133): drop one key from
every row of a batch. -/
def prune_rows (rows : List Row) (drop_key : String) : List Row :=
  match rows with
  | [] => rows
  | _ => rows.map (fun r => r.filter (fun kv => kv.1 ≠ drop_key))

/-- Outcome annotation for `supabase_insert_signals`: the Python function
returns `None` on every path; `success` marks the `r.ok` return,
`dropped` marks every abandoning return (including loop exhaustion). -/
inductive InsertOutcome where
  | success : InsertOutcome
  | dropped : InsertOutcome
deriving DecidableEq

/-- The uuid-error candidate keys of src/run_jobs.py line 165. -/
def uuidCandidates : List String := ["id", "account_id", "signal_id"]

/-- First candidate key present in any row (`for candidate ...: if any(candidate
in row for row in working)`), src/run_jobs.py lines 165-169. -/
def firstCandidatePresent (working : List Row) : Option String :=
  uuidCandidates.find? (fun c => working.any (fun r => hasKey r c))

/-- The retry loop body of `supabase_insert_signals` (src/run_jobs.py lines
150-178), with the attempt budget as structural fuel (`range(0, 8)`), and the
list of batches actually POSTed recorded as a trace.  Fuel 0 is the fall-off
end of the `for` loop: the batch is abandoned. -/
def insertSignalsLoop (post : List Row → HResp) : Nat → List Row → List (List Row) × InsertOutcome
  | 0, _ => ([], InsertOutcome.dropped)
  | fuel + 1, working =>
    let r := post working
    if r.ok then ([working], InsertOutcome.success)
    else
      match extract_missing_column_name r.text with
      | some col =>
        let rec0 := insertSignalsLoop post fuel (prune_rows working col)
        (working :: rec0.1, rec0.2)
      | none =>
        if containsSub r.text "invalid input syntax for type uuid" then
          match firstCandidatePresent working with
          | some cand =>
            let rec0 := insertSignalsLoop post fuel (prune_rows working cand)
            (working :: rec0.1, rec0.2)
          | none => ([working], InsertOutcome.dropped)
        else ([working], InsertOutcome.dropped)

/-- Embeds `supabase_insert_signals` (src/run_jobs.py lines 136-178): an
empty batch returns immediately, otherwise the self-healing retry loop runs
with a budget of 8 attempts. -/
def supabase_insert_signals (post : List Row → HResp) (rows : List Row) :
    List (List Row) × InsertOutcome :=
  match rows with
  | [] => ([], InsertOutcome.success)
  | _ => insertSignalsLoop post 8 rows

/-- Embeds `supabase_mark_inactive` (src/run_jobs.py lines 181-195): an empty
id list returns immediately; otherwise the PATCH either succeeds or
`raise_for_status()` raises, modelled as `Except.error`. -/
def supabase_mark_inactive (patchOk : String → List String → Bool)
    (company : String) (job_ids : List String) : Except String Unit :=
  match job_ids with
  | [] => Except.ok ()
  | _ => if patchOk company job_ids then Except.ok () else Except.error "HTTPError"

/-- The per-chunk loop of `main` for removed jobs (src/run_jobs.py lines
349-357): mark each chunk inactive, then build and insert its JOB_REMOVED
signals.  An exception from `supabase_mark_inactive` propagates, aborting the
loop; the result records the chunks on which a PATCH was issued, the signals
built, and whether the loop completed without raising. -/
def removedLoop (patchOk : String → List String → Bool) (company now : String) :
    List (List String) → List (List String) × List Row × Bool
  | [] => ([], [], true)
  | chunk :: rest =>
    match supabase_mark_inactive patchOk company chunk with
    | Except.error _ => ([chunk], [], false)
    | Except.ok _ =>
      let sigs := chunk.map (build_removed_job_signal company now)
      let rec0 := removedLoop patchOk company now rest
      (chunk :: rec0.1, sigs ++ rec0.2.1, rec0.2.2)

/-- `str(r[JOB_ID_COL])` for a mapped row (src/run_jobs.py lines 339-340). -/
def rowIdStr (r : Row) : String := pyStr (rowGet r JOB_ID_COL)

/-- The set of currently observed identifiers, `{str(r[JOB_ID_COL]) for r in
mapped_rows}` (src/run_jobs.py line 339), modelled as the list of its
members. -/
def currentIds (rows : List Row) : List String := rows.map rowIdStr

/-- The rows that were not active before, `[r for r in mapped_rows if
str(r[JOB_ID_COL]) not in existing_active]` (src/run_jobs.py line 340). -/
def newRows (existing_active : List String) (rows : List Row) : List Row :=
  rows.filter (fun r => !(existing_active.contains (rowIdStr r)))

/-- The NEW_JOB signals of one entity pass (src/run_jobs.py lines 338-341). -/
def newJobSignals (company now : String) (existing_active : List String)
    (items : List Row) : List Row :=
  (newRows existing_active (items.map (map_job_item_to_row company now))).map
    (build_new_job_signal company now)

/-- `sorted(existing_active - current_ids)` (src/run_jobs.py line 348):
the previously active identifiers absent from the current fetch, in Python
sorted order.  `existing_active` is a Python set, modelled as the list of its
members. -/
def removed_ids (existing_active curr : List String) : List String :=
  pySorted (existing_active.filter (fun x => !(curr.contains x)))

/-- The whole removed-jobs phase of one entity pass (src/run_jobs.py lines
348-357): diff, sort, chunk by `BATCH = 200`, then the per-chunk loop. -/
def removedPhase (patchOk : String → List String → Bool) (company now : String)
    (existing_active curr : List String) : List (List String) × List Row × Bool :=
  removedLoop patchOk company now (chunksOf 200 (removed_ids existing_active curr))

/-- The defensive backfill of `main` (src/run_jobs.py lines 327-329):
`if "job_uid" not in r or not r["job_uid"]: r["job_uid"] = r["id"]`. -/
def backfill_job_uid (r : Row) : Row :=
  if !(hasKey r "job_uid") || !(pyTruthy (rowGet r "job_uid")) then
    rowSet r "job_uid" (rowGet r JOB_ID_COL)
  else r

/-- Merge of one incoming payload row into a stored row on key conflict.
Models the storage behaviour requested by `supabase_upsert_job_posts`
(src/run_jobs.py lines 94-114): the header `Prefer:
resolution=merge-duplicates` with `on_conflict=id` makes PostgREST run an
`ON CONFLICT DO UPDATE` that overwrites every column present in the payload;
stored columns missing from the payload are kept. -/
def upsertMergeRow (stored incoming : Row) : Row :=
  stored.map (fun kv => if hasKey incoming kv.1 then (kv.1, rowGet incoming kv.1) else kv)

/-- The upsert of a payload into a store of rows keyed by `JOB_ID_COL`,
under the merge-duplicates semantics of `upsertMergeRow`: a payload row whose
key exists merges into the stored row, otherwise it is appended. -/
def upsert_store (store payload : List Row) : List Row :=
  payload.foldl
    (fun st row =>
      if st.any (fun r => rowIdStr r == rowIdStr row) then
        st.map (fun r => if rowIdStr r == rowIdStr row then upsertMergeRow r row else r)
      else st ++ [row])
    store

/-- The Snapshot Differencer classification NEW = curr − prev
(src/run_jobs.py line 340, as set algebra). -/
def NEW (prev curr : Finset String) : Finset String := curr \ prev

/-- The Snapshot Differencer classification STILL_ACTIVE = curr ∩ prev
(implicit in src/run_jobs.py: rows filtered out at line 340 and not in the
diff of line 348; no signal is emitted for them). -/
def STILL_ACTIVE (prev curr : Finset String) : Finset String := curr ∩ prev

/-- The Snapshot Differencer classification REMOVED = prev − curr
(src/run_jobs.py line 348). -/
def REMOVED (prev curr : Finset String) : Finset String := prev \ curr

/-- The `job_uid` reference carried by a signal row, as a string. -/
def sigJobUidStr (s : Row) : String := pyStr (rowGet s "job_uid")

/-- The `signal_type` kind carried by a signal row, as a string. -/
def sigTypeStr (s : Row) : String := pyStr (rowGet s "signal_type")

/-! ### Helper lemmas -/

theorem uuidFormat_ne_empty (bs : List Nat) : uuidFormat bs ≠ "" := by
  intro h
  have h2 := congrArg String.length h
  have hd : ("-" : String).length = 1 := rfl
  have he : ("" : String).length = 0 := rfl
  simp only [uuidFormat, String.length_append, hd, he] at h2
  omega

theorem uuid5str_ne_empty (name : String) : uuid5str name ≠ "" :=
  uuidFormat_ne_empty _

theorem pyOr_jstr {s : String} (v : JVal) (h : s ≠ "") :
    pyOr (JVal.jstr s) v = JVal.jstr s := by
  simp only [pyOr, pyTruthy]
  rw [if_pos]
  simpa using h

/-- The `job_uid` of a NEW_JOB signal built from a mapped row is the mapped
row's identifier (the `or` in `build_new_job_signal` takes its left branch
because a uuid string is never empty). -/
theorem sigJobUid_build_new (company now now2 : String) (item : Row) :
    sigJobUidStr (build_new_job_signal company now2 (map_job_item_to_row company now item)) =
      rowIdStr (map_job_item_to_row company now item) := by
  show pyStr (JVal.jstr (pyStr (pyOr (JVal.jstr (identityResolver company item)) _))) = _
  rw [pyOr_jstr _ (show identityResolver company item ≠ "" from uuid5str_ne_empty _)]
  rfl

theorem sigType_build_new (company now : String) (r : Row) :
    sigTypeStr (build_new_job_signal company now r) = "NEW_JOB" := rfl

theorem sigJobUid_build_removed (company now jid : String) :
    sigJobUidStr (build_removed_job_signal company now jid) = jid := rfl

theorem sigType_build_removed (company now jid : String) :
    sigTypeStr (build_removed_job_signal company now jid) = "JOB_REMOVED" := rfl

theorem rowIdStr_map (company now : String) (item : Row) :
    rowIdStr (map_job_item_to_row company now item) = identityResolver company item := rfl

/-- Fuel irrelevance for `chunksOfAux`: any fuel at least the list length
gives the same chunks (the chunk size must be positive). -/
theorem chunksOfAux_fuel {n : Nat} (hn : 0 < n) :
    ∀ f g (l : List α), l.length ≤ f → l.length ≤ g →
      chunksOfAux n f l = chunksOfAux n g l := by
  intro f
  induction f with
  | zero =>
    intro g l hf _
    have : l = [] := List.eq_nil_of_length_eq_zero (Nat.le_zero.mp hf)
    subst this
    cases g <;> rfl
  | succ f ih =>
    intro g l hf hg
    cases g with
    | zero =>
      have : l = [] := List.eq_nil_of_length_eq_zero (Nat.le_zero.mp hg)
      subst this; rfl
    | succ g =>
      cases l with
      | nil => rfl
      | cons x xs =>
        simp only [chunksOfAux]
        congr 1
        have hdl : (List.drop n (x :: xs)).length = xs.length + 1 - n := by
          simp [List.length_drop]
        apply ih
        · rw [hdl]
          simp only [List.length_cons] at hf
          omega
        · rw [hdl]
          simp only [List.length_cons] at hg
          omega

/-- Unfolding step for `chunksOf` on a nonempty list. -/
theorem chunksOf_cons {n : Nat} (hn : 0 < n) (l : List α) (hl : l ≠ []) :
    chunksOf n l = l.take n :: chunksOf n (l.drop n) := by
  cases l with
  | nil => exact absurd rfl hl
  | cons x xs =>
    show chunksOfAux n (xs.length + 1) (x :: xs) = _
    simp only [chunksOfAux]
    congr 1
    have hdl : (List.drop n (x :: xs)).length = xs.length + 1 - n := by
      simp [List.length_drop]
    apply chunksOfAux_fuel hn
    · rw [hdl]; omega
    · exact Nat.le_refl _

/-- The chunks of a list concatenate back to the list. -/
theorem chunksOf_flatten {n : Nat} (hn : 0 < n) (l : List α) :
    (chunksOf n l).flatten = l := by
  suffices h : ∀ f (l : List α), l.length ≤ f → (chunksOfAux n f l).flatten = l by
    exact h l.length l (Nat.le_refl _)
  intro f
  induction f with
  | zero =>
    intro l hf
    have : l = [] := List.eq_nil_of_length_eq_zero (Nat.le_zero.mp hf)
    subst this; rfl
  | succ f ih =>
    intro l hf
    cases l with
    | nil => rfl
    | cons x xs =>
      simp only [chunksOfAux, List.flatten_cons]
      rw [ih]
      · exact List.take_append_drop n (x :: xs)
      · have hdl : (List.drop n (x :: xs)).length = xs.length + 1 - n := by
          simp [List.length_drop]
        rw [hdl]
        simp only [List.length_cons] at hf
        omega

/-- Every chunk has at most the chunk size. -/
theorem chunksOf_size_le {n : Nat} (hn : 0 < n) (l : List α) :
    ∀ c ∈ chunksOf n l, c.length ≤ n := by
  suffices h : ∀ f (l : List α), l.length ≤ f → ∀ c ∈ chunksOfAux n f l, c.length ≤ n by
    exact h l.length l (Nat.le_refl _)
  intro f
  induction f with
  | zero =>
    intro l hf
    have : l = [] := List.eq_nil_of_length_eq_zero (Nat.le_zero.mp hf)
    subst this; intro c hc; cases hc
  | succ f ih =>
    intro l hf c hc
    cases l with
    | nil => cases hc
    | cons x xs =>
      simp only [chunksOfAux, List.mem_cons] at hc
      rcases hc with h | h
      · subst h
        exact List.length_take_le n (x :: xs)
      · apply ih ((x :: xs).drop n) _ c h
        have hdl : (List.drop n (x :: xs)).length = xs.length + 1 - n := by
          simp [List.length_drop]
        rw [hdl]
        simp only [List.length_cons] at hf
        omega

/-- `pySorted` is a permutation of its input. -/
theorem pySorted_perm (l : List String) : (pySorted l).Perm l :=
  List.perm_insertionSort strLe l

/-- `removed_ids` is a permutation of the previously active identifiers not
currently observed. -/
theorem removed_ids_perm (prev curr : List String) :
    (removed_ids prev curr).Perm (prev.filter (fun x => !(curr.contains x))) :=
  pySorted_perm _

/-- When every chunk's PATCH succeeds, the removed-jobs loop issues every
chunk, builds one JOB_REMOVED signal per identifier in chunk order, and
completes. -/
theorem removedLoop_all_ok (patchOk : String → List String → Bool)
    (company now : String) (chunks : List (List String))
    (h : ∀ c ∈ chunks, supabase_mark_inactive patchOk company c = Except.ok ()) :
    removedLoop patchOk company now chunks =
      (chunks, chunks.flatten.map (build_removed_job_signal company now), true) := by
  induction chunks with
  | nil => rfl
  | cons c rest ih =>
    have hc := h c (List.mem_cons_self c rest)
    simp only [removedLoop, hc]
    rw [ih (fun d hd => h d (List.mem_cons_of_mem c hd))]
    simp [List.map_append]

/-- When the PATCH of some chunk raises and every earlier chunk succeeded,
the loop issues exactly the chunks up to and including the failing one, and
the exception propagates (the completion flag is false). -/
theorem removedLoop_fail_stops (patchOk : String → List String → Bool)
    (company now : String) (pre : List (List String)) (failc : List String)
    (rest : List (List String))
    (hpre : ∀ c ∈ pre, supabase_mark_inactive patchOk company c = Except.ok ())
    (hfail : supabase_mark_inactive patchOk company failc = Except.error "HTTPError") :
    (removedLoop patchOk company now (pre ++ failc :: rest)).1 = pre ++ [failc] ∧
      (removedLoop patchOk company now (pre ++ failc :: rest)).2.2 = false := by
  induction pre with
  | nil =>
    simp [removedLoop, hfail]
  | cons c pre ih =>
    have hc := hpre c (List.mem_cons_self c pre)
    have ih2 := ih (fun d hd => hpre d (List.mem_cons_of_mem c hd))
    rw [List.cons_append]
    simp only [removedLoop, hc]
    refine ⟨?_, ?_⟩
    · show (removedLoop patchOk company now (pre ++ failc :: rest)).1.cons c =
        (c :: pre) ++ [failc]
      rw [ih2.1, List.cons_append]
    · show (removedLoop patchOk company now (pre ++ failc :: rest)).2.2 = false
      exact ih2.2

/-- `_prune_rows` is the per-row removal of exactly the dropped key. -/
theorem prune_rows_eq (rows : List Row) (c : String) :
    prune_rows rows c = rows.map (fun r => r.filter (fun kv => kv.1 ≠ c)) := by
  cases rows <;> rfl

/-- After pruning a key from a row, the key is gone. -/
theorem hasKey_prune_self (r : Row) (c : String) :
    hasKey (r.filter (fun kv => kv.1 ≠ c)) c = false := by
  induction r with
  | nil => rfl
  | cons kv rest ih =>
    by_cases h : kv.1 = c
    · simp only [List.filter, h]
      simpa using ih
    · simp only [List.filter]
      rw [decide_eq_true (by exact h : kv.1 ≠ c)]
      simp only [hasKey]
      rw [if_neg h]
      exact ih

/-- Pruning a key from a row leaves every other key's value unchanged. -/
theorem rowGet_prune_ne (r : Row) (c k : String) (h : k ≠ c) :
    rowGet (r.filter (fun kv => kv.1 ≠ c)) k = rowGet r k := by
  induction r with
  | nil => rfl
  | cons kv rest ih =>
    rw [List.filter_cons]
    by_cases h2 : kv.1 = c
    · rw [if_neg (by simp [h2])]
      rw [ih]
      have hne : ¬(kv.1 = k) := by
        rw [h2]; intro hx; exact h hx.symm
      show rowGet rest k = rowGet (kv :: rest) k
      simp only [rowGet]
      rw [if_neg hne]
    · rw [if_pos (by simp [h2])]
      simp only [rowGet]
      rw [ih]

/-- The trace of the signal-insert loop never exceeds the attempt budget. -/
theorem insertSignalsLoop_len (post : List Row → HResp) :
    ∀ fuel w, ((insertSignalsLoop post fuel w).1).length ≤ fuel := by
  intro fuel
  induction fuel with
  | zero => intro w; simp [insertSignalsLoop]
  | succ f ih =>
    intro w
    simp only [insertSignalsLoop]
    split
    · simp
    · split
      · simpa using Nat.succ_le_succ (ih _)
      · split
        · split
          · simpa using Nat.succ_le_succ (ih _)
          · simp
        · simp

/-- With positive fuel, the first batch POSTed is the batch handed in. -/
theorem insertSignalsLoop_head (post : List Row → HResp) (f : Nat) (w : List Row)
    (hf : 0 < f) : ((insertSignalsLoop post f w).1).head? = some w := by
  cases f with
  | zero => cases hf
  | succ f =>
    simp only [insertSignalsLoop]
    split
    · rfl
    · split
      · rfl
      · split
        · split
          · rfl
          · rfl
        · rfl

/-- Adjacent batches of the trace: every non-final POST got a rejection, and
when the rejection named a missing column the next batch is exactly the
previous one with that column pruned from every row. -/
theorem insertSignalsLoop_adjacent (post : List Row → HResp) :
    ∀ fuel w i b₁ b₂,
      ((insertSignalsLoop post fuel w).1).get? i = some b₁ →
      ((insertSignalsLoop post fuel w).1).get? (i + 1) = some b₂ →
      (post b₁).ok = false ∧
        ∀ col, extract_missing_column_name (post b₁).text = some col →
          b₂ = prune_rows b₁ col := by
  intro fuel
  induction fuel with
  | zero => intro w i b₁ b₂ h1 _; simp [insertSignalsLoop] at h1
  | succ f ih =>
    intro w i b₁ b₂ h1 h2
    simp only [insertSignalsLoop] at h1 h2
    rcases hok : (post w).ok with _ | _
    · rw [hok] at h1 h2
      simp only [Bool.false_eq_true, if_false] at h1 h2
      rcases hex : extract_missing_column_name (post w).text with _ | col
      · rw [hex] at h1 h2
        rcases hcs : containsSub (post w).text "invalid input syntax for type uuid" with _ | _
        · rw [hcs] at h1 h2
          simp only [Bool.false_eq_true, if_false] at h1 h2
          cases i with
          | zero =>
            simp only [List.get?] at h1 h2
            cases h2
          | succ i =>
            simp only [List.get?] at h1 h2
            cases h1
        · rw [hcs] at h1 h2
          simp only [if_true] at h1 h2
          rcases hfc : firstCandidatePresent w with _ | cand
          · rw [hfc] at h1 h2
            cases i with
            | zero => simp only [List.get?] at h1 h2; cases h2
            | succ i => simp only [List.get?] at h1 h2; cases h1
          · rw [hfc] at h1 h2
            cases i with
            | zero =>
              simp only [List.get?] at h1 h2
              cases h1
              constructor
              · exact hok
              · intro col hcol
                rw [hex] at hcol
                cases hcol
            | succ i =>
              simp only [List.get?] at h1 h2
              exact ih (prune_rows w cand) i b₁ b₂ h1 h2
      · rw [hex] at h1 h2
        cases i with
        | zero =>
          simp only [List.get?] at h1 h2
          cases h1
          refine ⟨hok, fun col2 hcol2 => ?_⟩
          rw [hex] at hcol2
          injection hcol2 with hcoleq
          subst hcoleq
          cases f with
          | zero => simp [insertSignalsLoop] at h2
          | succ f2 =>
            have hh := insertSignalsLoop_head post (f2 + 1) (prune_rows w col) (Nat.succ_pos f2)
            rw [← List.get?_zero] at hh
            rw [h2] at hh
            injection hh with hh2
        | succ i =>
          simp only [List.get?] at h1 h2
          exact ih (prune_rows w col) i b₁ b₂ h1 h2
    · rw [hok] at h1 h2
      simp only [if_true] at h1 h2
      cases i with
      | zero => simp only [List.get?] at h1 h2; cases h2
      | succ i => simp only [List.get?] at h1 h2; cases h1

/-- If the backend rejects every batch and always names a missing column,
the loop exhausts its budget and the batch is abandoned. -/
theorem insertSignalsLoop_exhaust (post : List Row → HResp)
    (hok : ∀ b, (post b).ok = false)
    (hex : ∀ b, ∃ c, extract_missing_column_name (post b).text = some c) :
    ∀ fuel w, (insertSignalsLoop post fuel w).2 = InsertOutcome.dropped := by
  intro fuel
  induction fuel with
  | zero => intro w; rfl
  | succ f ih =>
    intro w
    obtain ⟨c, hc⟩ := hex w
    simp only [insertSignalsLoop, hok w, Bool.false_eq_true, if_false, hc]
    exact ih (prune_rows w c)

/-- With a PATCH that always succeeds, the removed-jobs phase issues every
chunk, builds the JOB_REMOVED signals of exactly the removed identifiers in
order, and completes. -/
theorem removedPhase_true_eq (company now : String) (prev curr : List String) :
    removedPhase (fun _ _ => true) company now prev curr =
      (chunksOf 200 (removed_ids prev curr),
       (removed_ids prev curr).map (build_removed_job_signal company now), true) := by
  unfold removedPhase
  rw [removedLoop_all_ok]
  · rw [chunksOf_flatten (by decide)]
  · intro c _
    cases c with
    | nil => rfl
    | cons x xs => simp [supabase_mark_inactive]

/-- The `job_uid` projections of a list of JOB_REMOVED signals are the
identifiers they were built from. -/
theorem removed_sig_uids (company now : String) (l : List String) :
    (l.map (build_removed_job_signal company now)).map sigJobUidStr = l := by
  rw [List.map_map]
  have h : ∀ a ∈ l, (sigJobUidStr ∘ build_removed_job_signal company now) a = id a :=
    fun a _ => rfl
  rw [List.map_congr_left h, List.map_id]

/-- Each removed identifier occurs exactly once among the removed ids when
the previously active set has no duplicates. -/
theorem removed_ids_count_one (prev curr : List String) (u : String)
    (hnd : prev.Nodup) (hu : u ∈ prev) (hc : curr.contains u = false) :
    (removed_ids prev curr).count u = 1 := by
  rw [(removed_ids_perm prev curr).count_eq]
  apply List.count_eq_one_of_mem (hnd.filter _)
  apply List.mem_filter.mpr
  exact ⟨hu, by rw [hc]; rfl⟩

/-- An identifier still observed (or never active) yields no removed id. -/
theorem removed_ids_count_zero (prev curr : List String) (u : String)
    (hc : curr.contains u = true) :
    (removed_ids prev curr).count u = 0 := by
  rw [(removed_ids_perm prev curr).count_eq]
  apply List.count_eq_zero_of_not_mem
  intro hmem
  have h2 := (List.mem_filter.mp hmem).2
  rw [hc] at h2
  cases h2

/-- Mapping the uid projection over built NEW_JOB signals is the row-id
projection, given the pointwise fact for each row of the batch. -/
theorem map_sig_uid (company now : String) : ∀ (l : List Row),
    (∀ r ∈ l, sigJobUidStr (build_new_job_signal company now r) = rowIdStr r) →
    (l.map (build_new_job_signal company now)).map sigJobUidStr = l.map rowIdStr := by
  intro l
  induction l with
  | nil => intro _; rfl
  | cons r rest ih =>
    intro h
    simp only [List.map_cons]
    rw [h r (List.mem_cons_self r rest), ih (fun d hd => h d (List.mem_cons_of_mem r hd))]

/-- The uid of each NEW_JOB signal is the id of the fetched row it was built
from: one signal per row kept by the not-previously-active filter. -/
theorem newJobSignals_uids (company now : String) (prev : List String)
    (items : List Row) :
    (newJobSignals company now prev items).map sigJobUidStr =
      (newRows prev (items.map (map_job_item_to_row company now))).map rowIdStr := by
  unfold newJobSignals
  apply map_sig_uid
  intro r hr
  obtain ⟨item, _, rfl⟩ := List.mem_map.mp (List.mem_of_mem_filter hr)
  exact sigJobUid_build_new company now now item

/-- Every signal of the NEW_JOB batch carries kind NEW_JOB. -/
theorem newJobSignals_type (company now : String) (prev : List String)
    (items : List Row) :
    ∀ s ∈ newJobSignals company now prev items, sigTypeStr s = "NEW_JOB" := by
  intro s hs
  obtain ⟨r, _, rfl⟩ := List.mem_map.mp hs
  rfl

/-- No NEW_JOB signal is emitted for a previously active identifier. -/
theorem newJobSignals_not_prev (company now : String) (prev : List String)
    (items : List Row) :
    ∀ u ∈ (newJobSignals company now prev items).map sigJobUidStr,
      prev.contains u = false := by
  rw [newJobSignals_uids]
  intro u hu
  obtain ⟨r, hr, rfl⟩ := List.mem_map.mp hu
  have hf := List.of_mem_filter hr
  simpa using hf

/-- Any field read from a row is null or one of the row's stored values. -/
theorem rowGet_eq_of_mem (r : Row) (k : String) (v : JVal) (h : rowGet r k = v) :
    v = JVal.jnull ∨ ∃ kv, kv ∈ r ∧ v = kv.2 := by
  induction r generalizing v with
  | nil => exact Or.inl h.symm
  | cons kv rest ih =>
    simp only [rowGet] at h
    by_cases h2 : kv.1 = k
    · rw [if_pos h2] at h
      exact Or.inr ⟨kv, List.mem_cons_self kv rest, h.symm⟩
    · rw [if_neg h2] at h
      rcases ih v h with hl | ⟨kv2, hkv2, hv⟩
      · exact Or.inl hl
      · exact Or.inr ⟨kv2, List.mem_cons_of_mem kv hkv2, hv⟩

/-! ### Claims -/

/-- C7: for all finite sets prev (previously active identifiers) and curr
(currently observed identifiers), the classifications NEW = curr − prev,
STILL_ACTIVE = curr ∩ prev and REMOVED = prev − curr are pairwise disjoint
and their union equals prev ∪ curr. -/
theorem C7_diff_partition (prev curr : Finset String) :
    Disjoint (NEW prev curr) (STILL_ACTIVE prev curr) ∧
    Disjoint (NEW prev curr) (REMOVED prev curr) ∧
    Disjoint (STILL_ACTIVE prev curr) (REMOVED prev curr) ∧
    NEW prev curr ∪ STILL_ACTIVE prev curr ∪ REMOVED prev curr = prev ∪ curr := by
  refine ⟨?_, ?_, ?_, ?_⟩
  · rw [Finset.disjoint_left]
    intro a ha hb
    simp only [NEW, STILL_ACTIVE, Finset.mem_sdiff, Finset.mem_inter] at ha hb
    exact ha.2 hb.2
  · rw [Finset.disjoint_left]
    intro a ha hb
    simp only [NEW, REMOVED, Finset.mem_sdiff] at ha hb
    exact hb.2 ha.1
  · rw [Finset.disjoint_left]
    intro a ha hb
    simp only [STILL_ACTIVE, REMOVED, Finset.mem_inter, Finset.mem_sdiff] at ha hb
    exact hb.2 ha.1
  · ext a
    simp only [NEW, STILL_ACTIVE, REMOVED, Finset.mem_union, Finset.mem_sdiff,
      Finset.mem_inter]
    tauto

/-- C4 (amended): the Identity Resolver is a total deterministic function of
(entity name, upstream record): it always produces a nonempty identifier,
the name-based uuid of the seed; when the native id field is TRUTHY
(non-null and nonempty/nonzero — not merely non-null as the claim stated)
the seed is entity :: nativeId, otherwise the seed is entity :: url with a
falsy url coerced to the empty string. -/
theorem C4_identity_resolver (company : String) (item : Row) :
    identityResolver company item = uuid5str (seedOf company item) ∧
    identityResolver company item = identityResolver company item ∧
    identityResolver company item ≠ "" ∧
    (pyTruthy (rowGet item "id") = true →
      seedOf company item = company ++ "::" ++ pyStr (rowGet item "id")) ∧
    (pyTruthy (rowGet item "id") = false →
      seedOf company item =
        company ++ "::" ++ pyStr (pyOr (rowGet item "url") (JVal.jstr ""))) := by
  refine ⟨rfl, rfl, uuid5str_ne_empty _, ?_, ?_⟩
  · intro h
    simp only [seedOf, pyOr, h, if_true]
  · intro h
    simp only [seedOf, pyOr, h, Bool.false_eq_true, if_false]

/-- An item whose native id is present (non-null) but empty: Python
truthiness sends the seed to the url fallback. -/
def itemEmptyId : Row := [("id", JVal.jstr ""), ("url", JVal.jstr "u")]

/-- C4 counterexample: the record carries a non-null native identifier (the
empty string), yet the seed is computed from the url, not from
entity :: nativeId — the claim's non-null dichotomy fails at this input;
the code branches on truthiness, not nullness. -/
theorem C4_counterexample :
    rowGet itemEmptyId "id" = JVal.jstr "" ∧
    JVal.jstr "" ≠ JVal.jnull ∧
    seedOf "Acme" itemEmptyId = "Acme::u" ∧
    "Acme::u" ≠ "Acme" ++ "::" ++ pyStr (rowGet itemEmptyId "id") :=
  ⟨rfl, fun h => JVal.noConfusion h, rfl, by decide⟩

/-- A record with a truthy native identifier. -/
def itemWithId : Row := [("id", JVal.jstr "42"), ("url", JVal.jstr "https://x")]

/-- C4 witness: at a concrete record with truthy native id "42" the seed is
entity :: nativeId. -/
theorem C4_identity_resolver_witness :
    pyTruthy (rowGet itemWithId "id") = true ∧
    seedOf "Acme" itemWithId = "Acme" ++ "::" ++ pyStr (rowGet itemWithId "id") :=
  ⟨by decide, (C4_identity_resolver "Acme" itemWithId).2.2.2.1 (by decide)⟩

/-- C10: every row produced by the Record Normalizer has its id field equal
to its job_uid field, both the nonempty identifier string, and the
orchestrator's defensive backfill loop never modifies such a row. -/
theorem C10_backfill_noop (company now : String) (item : Row) :
    rowGet (map_job_item_to_row company now item) JOB_ID_COL =
      rowGet (map_job_item_to_row company now item) "job_uid" ∧
    rowGet (map_job_item_to_row company now item) "job_uid" =
      JVal.jstr (identityResolver company item) ∧
    identityResolver company item ≠ "" ∧
    hasKey (map_job_item_to_row company now item) "job_uid" = true ∧
    backfill_job_uid (map_job_item_to_row company now item) =
      map_job_item_to_row company now item := by
  refine ⟨rfl, rfl, uuid5str_ne_empty _, rfl, ?_⟩
  have ht : pyTruthy (rowGet (map_job_item_to_row company now item) "job_uid") = true := by
    show (identityResolver company item != "") = true
    simpa [bne_iff_ne] using uuid5str_ne_empty (seedOf company item)
  have hk : hasKey (map_job_item_to_row company now item) "job_uid" = true := rfl
  unfold backfill_job_uid
  rw [ht, hk]
  simp

/-- C2 (the code at the divergence point): the normalizer stamps
first_seen_at with the current run time in every row, and the
merge-duplicates upsert overwrites every payload column on conflict, so
re-upserting an already-stored item at a later run time t2 leaves the store
with first_seen_at = t2, not the original t1; last_seen_at advances to t2
as claimed. -/
theorem C2_first_seen_overwritten (company now1 now2 : String) (item : Row) :
    rowGet (map_job_item_to_row company now1 item) "first_seen_at" = JVal.jstr now1 ∧
    upsert_store [map_job_item_to_row company now1 item]
        [map_job_item_to_row company now2 item] =
      [upsertMergeRow (map_job_item_to_row company now1 item)
        (map_job_item_to_row company now2 item)] ∧
    rowGet (upsertMergeRow (map_job_item_to_row company now1 item)
        (map_job_item_to_row company now2 item)) "first_seen_at" = JVal.jstr now2 ∧
    rowGet (upsertMergeRow (map_job_item_to_row company now1 item)
        (map_job_item_to_row company now2 item)) "last_seen_at" = JVal.jstr now2 := by
  refine ⟨rfl, ?_, rfl, rfl⟩
  have hid : rowIdStr (map_job_item_to_row company now1 item) =
      rowIdStr (map_job_item_to_row company now2 item) := rfl
  simp only [upsert_store, List.foldl_cons, List.foldl_nil, List.any_cons, List.any_nil,
    hid, beq_self_eq_true, Bool.or_false, if_true, List.map_cons, List.map_nil]

/-- Exactly-one-occurrence for a member of a duplicate-free list. -/
theorem count_one_of_nodup_mem {l : List String} {a : String}
    (hnd : l.Nodup) (h : a ∈ l) : l.count a = 1 := by
  induction l with
  | nil => cases h
  | cons b rest ih =>
    rcases List.mem_cons.mp h with rfl | hmem
    · rw [List.count_cons_self, List.count_eq_zero_of_not_mem (List.nodup_cons.mp hnd).1]
    · have hne : a ≠ b := by
        rintro rfl; exact (List.nodup_cons.mp hnd).1 hmem
      rw [List.count_cons_of_ne hne]
      exact ih (List.nodup_cons.mp hnd).2 hmem

/-- C1 (amended): marking inactive is issued in chunks of fixed size 200
(for 450 identifiers exactly 3 chunks of sizes 200, 200, 50, jointly
covering the whole list); the chunks are processed strictly sequentially,
and — contrary to the claim — a PATCH failure in one chunk raises out of the
loop: exactly the chunks up to and including the failing one are issued and
the later chunks are never issued. -/
theorem C1_mark_inactive_chunks (patchOk : String → List String → Bool)
    (company now : String) (ids : List String) :
    (chunksOf 200 ids).flatten = ids ∧
    (∀ c ∈ chunksOf 200 ids, c.length ≤ 200) ∧
    (ids.length = 450 → (chunksOf 200 ids).map List.length = [200, 200, 50]) ∧
    ((∀ c ∈ chunksOf 200 ids, supabase_mark_inactive patchOk company c = Except.ok ()) →
      removedLoop patchOk company now (chunksOf 200 ids) =
        (chunksOf 200 ids, ids.map (build_removed_job_signal company now), true)) ∧
    (∀ pre failc rest, chunksOf 200 ids = pre ++ failc :: rest →
      (∀ c ∈ pre, supabase_mark_inactive patchOk company c = Except.ok ()) →
      supabase_mark_inactive patchOk company failc = Except.error "HTTPError" →
      (removedLoop patchOk company now (chunksOf 200 ids)).1 = pre ++ [failc] ∧
      (removedLoop patchOk company now (chunksOf 200 ids)).2.2 = false) := by
  refine ⟨chunksOf_flatten (by decide) ids, chunksOf_size_le (by decide) ids, ?_, ?_, ?_⟩
  · intro h450
    have hne : ids ≠ [] := by
      intro h; rw [h] at h450; cases h450
    rw [chunksOf_cons (by decide) ids hne]
    have hlen1 : (ids.take 200).length = 200 := by
      rw [List.length_take]; omega
    have hdlen : (ids.drop 200).length = 250 := by
      rw [List.length_drop]; omega
    have hne2 : ids.drop 200 ≠ [] := by
      intro h; rw [h] at hdlen; cases hdlen
    rw [chunksOf_cons (by decide) (ids.drop 200) hne2]
    have hlen2 : ((ids.drop 200).take 200).length = 200 := by
      rw [List.length_take, hdlen]; omega
    have hdlen2 : ((ids.drop 200).drop 200).length = 50 := by
      rw [List.length_drop, hdlen]
    have hne3 : (ids.drop 200).drop 200 ≠ [] := by
      intro h; rw [h] at hdlen2; cases hdlen2
    rw [chunksOf_cons (by decide) ((ids.drop 200).drop 200) hne3]
    have htk : List.take 200 ((ids.drop 200).drop 200) = (ids.drop 200).drop 200 :=
      List.take_of_length_le (by rw [hdlen2]; omega)
    have hdp : List.drop 200 ((ids.drop 200).drop 200) = [] :=
      List.drop_eq_nil_of_le (by rw [hdlen2]; omega)
    rw [htk, hdp]
    simp only [List.map_cons, show chunksOf 200 ([] : List String) = [] from rfl,
      List.map_nil]
    rw [hlen1, hlen2, hdlen2]
  · intro hok
    rw [removedLoop_all_ok patchOk company now _ hok, chunksOf_flatten (by decide) ids]
  · intro pre failc rest hch hpre hfail
    rw [hch]
    exact removedLoop_fail_stops patchOk company now pre failc rest hpre hfail

/-- 450 removed identifiers, "0" through "449". -/
def ids450 : List String := (List.range 450).map (fun i => toString i)

/-- A PATCH that fails exactly on the chunk containing identifier "200",
which is the second of the three chunks of `ids450`. -/
def patchFail2 : String → List String → Bool := fun _ chunk => !(chunk.contains "200")

/-- C1 counterexample: with 450 identifiers and a PATCH failure on chunk 2,
only 2 of the 3 chunks are ever issued — the failing chunk aborts the loop
and chunk 3 is not issued, refuting the claimed chunk independence. -/
theorem C1_counterexample :
    (chunksOf 200 ids450).length = 3 ∧
    ((removedLoop patchFail2 "Acme" "T" (chunksOf 200 ids450)).1).length = 2 ∧
    (removedLoop patchFail2 "Acme" "T" (chunksOf 200 ids450)).1 ≠ chunksOf 200 ids450 := by
  have hA : (chunksOf 200 ids450).length = 3 := by rfl
  have hB : ((removedLoop patchFail2 "Acme" "T" (chunksOf 200 ids450)).1).length = 2 := by rfl
  refine ⟨hA, hB, fun h => ?_⟩
  have h2 := congrArg List.length h
  rw [hA, hB] at h2
  exact absurd h2 (by decide)

/-- The three chunks of `ids450`. -/
def chunkA : List String := ids450.take 200

/-- Second chunk of `ids450`; its head is "200", so `patchFail2` fails it. -/
def chunkB : List String := (ids450.drop 200).take 200

/-- Third chunk of `ids450`. -/
def chunkC : List String := (ids450.drop 200).drop 200

/-- C1 witness: the concrete 450-identifier run has chunk sizes 200, 200, 50,
and with the PATCH failing on chunk 2 the loop issues chunks 1 and 2 only
and reports the raised failure. -/
theorem C1_mark_inactive_chunks_witness :
    (chunksOf 200 ids450).map List.length = [200, 200, 50] ∧
    (removedLoop patchFail2 "Acme" "T" (chunksOf 200 ids450)).1 = [chunkA] ++ [chunkB] ∧
    (removedLoop patchFail2 "Acme" "T" (chunksOf 200 ids450)).2.2 = false := by
  have hch : chunksOf 200 ids450 = [chunkA] ++ chunkB :: [chunkC] := by rfl
  have hpre : ∀ c ∈ [chunkA], supabase_mark_inactive patchFail2 "Acme" c = Except.ok () := by
    intro c hc
    rw [List.mem_singleton.mp hc]
    rfl
  have hfail : supabase_mark_inactive patchFail2 "Acme" chunkB = Except.error "HTTPError" := by
    rfl
  have h5 := (C1_mark_inactive_chunks patchFail2 "Acme" "T" ids450).2.2.2.2
    [chunkA] chunkB [chunkC] hch hpre hfail
  exact ⟨(C1_mark_inactive_chunks patchFail2 "Acme" "T" ids450).2.2.1 (by rfl), h5.1, h5.2⟩

/-- C3 (amended): within one run and one entity, the program emits one
NEW_JOB signal per FETCHED ROW whose identifier is not previously active —
per row, not per distinct identifier, so duplicate fetched items yield
duplicate signals — and, when the previously active set has no duplicates
and the PATCHes succeed, exactly one JOB_REMOVED signal per distinct
identifier that was previously active but is not currently observed, and
none for identifiers still observed. -/
theorem C3_signal_multiplicity (company now : String) (prev : List String)
    (items : List Row) :
    ((newJobSignals company now prev items).map sigJobUidStr =
      (newRows prev (items.map (map_job_item_to_row company now))).map rowIdStr) ∧
    (∀ s ∈ newJobSignals company now prev items, sigTypeStr s = "NEW_JOB") ∧
    (∀ u ∈ (newJobSignals company now prev items).map sigJobUidStr,
      prev.contains u = false) ∧
    (∀ s ∈ (removedPhase (fun _ _ => true) company now prev
        (currentIds (items.map (map_job_item_to_row company now)))).2.1,
      sigTypeStr s = "JOB_REMOVED") ∧
    (prev.Nodup → ∀ u, u ∈ prev →
      (currentIds (items.map (map_job_item_to_row company now))).contains u = false →
      (((removedPhase (fun _ _ => true) company now prev
          (currentIds (items.map (map_job_item_to_row company now)))).2.1).map
            sigJobUidStr).count u = 1) ∧
    (∀ u, (currentIds (items.map (map_job_item_to_row company now))).contains u = true →
      (((removedPhase (fun _ _ => true) company now prev
          (currentIds (items.map (map_job_item_to_row company now)))).2.1).map
            sigJobUidStr).count u = 0) := by
  refine ⟨newJobSignals_uids company now prev items,
    newJobSignals_type company now prev items,
    newJobSignals_not_prev company now prev items, ?_, ?_, ?_⟩
  · intro s hs
    rw [removedPhase_true_eq] at hs
    obtain ⟨jid, _, rfl⟩ := List.mem_map.mp hs
    rfl
  · intro hnd u hu hc
    rw [removedPhase_true_eq, removed_sig_uids]
    exact removed_ids_count_one prev _ u hnd hu hc
  · intro u hc
    rw [removedPhase_true_eq, removed_sig_uids]
    exact removed_ids_count_zero prev _ u hc

/-- C3 witness: for prev = ["p"] and an empty fetch, the removed phase emits
exactly one JOB_REMOVED signal carrying "p". -/
theorem C3_signal_multiplicity_witness :
    (((removedPhase (fun _ _ => true) "Acme" "T" ["p"]
        (currentIds (([] : List Row).map (map_job_item_to_row "Acme" "T")))).2.1).map
          sigJobUidStr).count "p" = 1 :=
  (C3_signal_multiplicity "Acme" "T" ["p"] []).2.2.2.2.1 (by decide) "p"
    (by decide) (by rfl)

/-- A fetched item that appears twice in one fetch. -/
def itemDup : Row := [("id", JVal.jstr "J1")]

/-- The identifier both duplicate items map to. -/
def uidDup : String := identityResolver "Acme" itemDup

/-- C3 counterexample: a fetch returning the same item twice yields two rows
with the same identifier, both pass the not-previously-active filter, and
TWO NEW_JOB signals are emitted for the single identifier `uidDup` — not
exactly one per distinct identifier as claimed. -/
theorem C3_counterexample :
    (newJobSignals "Acme" "T" [] [itemDup, itemDup]).map sigJobUidStr = [uidDup, uidDup] ∧
    uidDup ∈ currentIds ([itemDup, itemDup].map (map_job_item_to_row "Acme" "T")) ∧
    (([] : List String).contains uidDup = false) ∧
    ((newJobSignals "Acme" "T" [] [itemDup, itemDup]).map sigJobUidStr).count uidDup = 2 := by
  have h1 : (newJobSignals "Acme" "T" [] [itemDup, itemDup]).map sigJobUidStr =
      [uidDup, uidDup] := by
    have hshape : newJobSignals "Acme" "T" [] [itemDup, itemDup] =
        [build_new_job_signal "Acme" "T" (map_job_item_to_row "Acme" "T" itemDup),
         build_new_job_signal "Acme" "T" (map_job_item_to_row "Acme" "T" itemDup)] := rfl
    rw [hshape]
    simp only [List.map_cons, List.map_nil, sigJobUid_build_new "Acme" "T" "T" itemDup]
    rfl
  refine ⟨h1, ?_, rfl, ?_⟩
  · exact List.mem_cons_self _ _
  · rw [h1]
    rw [List.count_cons_self, List.count_cons_self, List.count_nil]

/-- C8: with an empty current observation set (upstream returned no items),
every previously active identifier is classified REMOVED, the phase
completes, and one JOB_REMOVED signal is produced per identifier. -/
theorem C8_empty_fetch_all_removed (company now : String) (prev : List String)
    (hnd : prev.Nodup) :
    (∀ u, u ∈ removed_ids prev
        (currentIds (([] : List Row).map (map_job_item_to_row company now))) ↔ u ∈ prev) ∧
    (removed_ids prev
        (currentIds (([] : List Row).map (map_job_item_to_row company now)))).length
      = prev.length ∧
    (removedPhase (fun _ _ => true) company now prev
        (currentIds (([] : List Row).map (map_job_item_to_row company now)))).2.2 = true ∧
    ((removedPhase (fun _ _ => true) company now prev
        (currentIds (([] : List Row).map (map_job_item_to_row company now)))).2.1).length
      = prev.length ∧
    (∀ s ∈ (removedPhase (fun _ _ => true) company now prev
        (currentIds (([] : List Row).map (map_job_item_to_row company now)))).2.1,
      sigTypeStr s = "JOB_REMOVED") ∧
    (∀ u ∈ prev,
      (((removedPhase (fun _ _ => true) company now prev
          (currentIds (([] : List Row).map (map_job_item_to_row company now)))).2.1).map
            sigJobUidStr).count u = 1) := by
  have hfil : prev.filter (fun x =>
      !((currentIds (([] : List Row).map (map_job_item_to_row company now))).contains x))
        = prev :=
    List.filter_eq_self.mpr (fun a _ => rfl)
  have hperm : (removed_ids prev
      (currentIds (([] : List Row).map (map_job_item_to_row company now)))).Perm prev := by
    have h := removed_ids_perm prev
      (currentIds (([] : List Row).map (map_job_item_to_row company now)))
    rw [hfil] at h
    exact h
  refine ⟨fun u => hperm.mem_iff, hperm.length_eq, ?_, ?_, ?_, ?_⟩
  · rw [removedPhase_true_eq]
  · rw [removedPhase_true_eq]
    show ((removed_ids prev _).map (build_removed_job_signal company now)).length = _
    rw [List.length_map]
    exact hperm.length_eq
  · intro s hs
    rw [removedPhase_true_eq] at hs
    obtain ⟨jid, _, rfl⟩ := List.mem_map.mp hs
    rfl
  · intro u hu
    rw [removedPhase_true_eq, removed_sig_uids]
    exact removed_ids_count_one prev _ u hnd hu rfl

/-- C8 witness: prev = {A, B, C} and an empty fetch produce three
JOB_REMOVED signals, one of them carrying "A". -/
theorem C8_empty_fetch_witness :
    ((removedPhase (fun _ _ => true) "Acme" "T" ["A", "B", "C"]
        (currentIds (([] : List Row).map (map_job_item_to_row "Acme" "T")))).2.1).length
      = 3 ∧
    (((removedPhase (fun _ _ => true) "Acme" "T" ["A", "B", "C"]
        (currentIds (([] : List Row).map (map_job_item_to_row "Acme" "T")))).2.1).map
          sigJobUidStr).count "A" = 1 := by
  have h := C8_empty_fetch_all_removed "Acme" "T" ["A", "B", "C"] (by decide)
  exact ⟨h.2.2.2.1, h.2.2.2.2.2 "A" (by decide)⟩

/-- C5: on a write rejection naming an unknown column the writer removes
exactly that field from every row of the pending batch and retries the same
batch, bounded to 8 attempts (within the stated 8-10 range); two unknown
columns flagged across sequential retries are both pruned and the batch
succeeds within the bound. -/
theorem C5_schema_prune_retry (post : List Row → HResp) (rows : List Row) :
    (∀ c, prune_rows rows c = rows.map (fun r => r.filter (fun kv => kv.1 ≠ c))) ∧
    (∀ c (r : Row), hasKey (r.filter (fun kv => kv.1 ≠ c)) c = false) ∧
    (∀ c (r : Row) k, k ≠ c → rowGet (r.filter (fun kv => kv.1 ≠ c)) k = rowGet r k) ∧
    ((supabase_insert_signals post rows).1).length ≤ 8 ∧
    (∀ i b₁ b₂, ((supabase_insert_signals post rows).1).get? i = some b₁ →
      ((supabase_insert_signals post rows).1).get? (i + 1) = some b₂ →
      ∀ col, extract_missing_column_name (post b₁).text = some col →
        b₂ = prune_rows b₁ col) ∧
    (∀ c₁ c₂, rows ≠ [] →
      (post rows).ok = false →
      extract_missing_column_name (post rows).text = some c₁ →
      (post (prune_rows rows c₁)).ok = false →
      extract_missing_column_name (post (prune_rows rows c₁)).text = some c₂ →
      (post (prune_rows (prune_rows rows c₁) c₂)).ok = true →
      supabase_insert_signals post rows =
        ([rows, prune_rows rows c₁, prune_rows (prune_rows rows c₁) c₂],
          InsertOutcome.success)) := by
  refine ⟨fun c => prune_rows_eq rows c, fun c r => hasKey_prune_self r c,
    fun c r k h => rowGet_prune_ne r c k h, ?_, ?_, ?_⟩
  · cases rows with
    | nil => simp [supabase_insert_signals]
    | cons a l => exact insertSignalsLoop_len post 8 (a :: l)
  · cases rows with
    | nil =>
      intro i b₁ b₂ h1 _
      simp [supabase_insert_signals] at h1
    | cons a l =>
      intro i b₁ b₂ h1 h2 col hcol
      exact (insertSignalsLoop_adjacent post 8 (a :: l) i b₁ b₂ h1 h2).2 col hcol
  · intro c₁ c₂ hne hok1 hex1 hok2 hex2 hok3
    cases rows with
    | nil => exact absurd rfl hne
    | cons a l =>
      show insertSignalsLoop post 8 (a :: l) = _
      simp only [insertSignalsLoop, hok1, hex1, hok2, hex2, hok3, Bool.false_eq_true,
        if_false, if_true]

/-- A batch with two columns the backend schema lacks and one it accepts. -/
def sigRowsW : List Row := [[("colA", JVal.jnull), ("colB", JVal.jnull), ("keep", JVal.jstr "v")]]

/-- A PostgREST-style missing-column message for column `c`. -/
def mkMissingMsg (c : String) : String :=
  String.mk ("Could not find the ".data ++ aposChar :: (c.data ++ aposChar ::
    " column of signals in the schema cache".data))

/-- A backend that rejects any batch still carrying colA (naming colA), then
any batch still carrying colB (naming colB), and accepts the rest. -/
def postW : List Row → HResp := fun b =>
  if b.any (fun r => hasKey r "colA") then HResp.mk false (mkMissingMsg "colA")
  else if b.any (fun r => hasKey r "colB") then HResp.mk false (mkMissingMsg "colB")
  else HResp.mk true ""

/-- C5 witness: with the concrete two-unknown-column backend, the writer
prunes colA, then colB, and the batch succeeds on the third attempt. -/
theorem C5_schema_prune_retry_witness :
    supabase_insert_signals postW sigRowsW =
      ([sigRowsW, prune_rows sigRowsW "colA", prune_rows (prune_rows sigRowsW "colA") "colB"],
        InsertOutcome.success) :=
  (C5_schema_prune_retry postW sigRowsW).2.2.2.2.2 "colA" "colB"
    (by simp [sigRowsW]) rfl rfl rfl rfl rfl

/-- C6 (amended): the signal writer never raises — every run of it ends in
success or a dropped batch; a first rejection that names no missing column
and is not a uuid-syntax error drops the batch at once; but a uuid-syntax
rejection — although not an unknown-column schema mismatch — is NOT dropped
when an id-like field (id, account_id or signal_id) is present: the writer
prunes that field and retries the batch with the remaining budget, and the
batch may then succeed; a uuid-syntax rejection with no id-like field left
is dropped; and exhausting the 8 schema-prune retries drops the batch. -/
theorem C6_rejection_policy (post : List Row → HResp) (rows : List Row) :
    ((supabase_insert_signals post rows).2 = InsertOutcome.success ∨
      (supabase_insert_signals post rows).2 = InsertOutcome.dropped) ∧
    (rows ≠ [] → (post rows).ok = false →
      extract_missing_column_name (post rows).text = none →
      containsSub (post rows).text "invalid input syntax for type uuid" = false →
      supabase_insert_signals post rows = ([rows], InsertOutcome.dropped)) ∧
    (∀ cand, rows ≠ [] → (post rows).ok = false →
      extract_missing_column_name (post rows).text = none →
      containsSub (post rows).text "invalid input syntax for type uuid" = true →
      firstCandidatePresent rows = some cand →
      supabase_insert_signals post rows =
        (rows :: (insertSignalsLoop post 7 (prune_rows rows cand)).1,
         (insertSignalsLoop post 7 (prune_rows rows cand)).2)) ∧
    (rows ≠ [] → (post rows).ok = false →
      extract_missing_column_name (post rows).text = none →
      containsSub (post rows).text "invalid input syntax for type uuid" = true →
      firstCandidatePresent rows = none →
      supabase_insert_signals post rows = ([rows], InsertOutcome.dropped)) ∧
    (rows ≠ [] → (∀ b, (post b).ok = false) →
      (∀ b, ∃ c, extract_missing_column_name (post b).text = some c) →
      (supabase_insert_signals post rows).2 = InsertOutcome.dropped) := by
  refine ⟨?_, ?_, ?_, ?_, ?_⟩
  · cases h : (supabase_insert_signals post rows).2
    · exact Or.inl rfl
    · exact Or.inr rfl
  · intro hne hok hex hcs
    cases rows with
    | nil => exact absurd rfl hne
    | cons a l =>
      show insertSignalsLoop post 8 (a :: l) = _
      simp only [insertSignalsLoop, hok, hex, hcs, Bool.false_eq_true, if_false]
  · intro cand hne hok hex hcs hfc
    cases rows with
    | nil => exact absurd rfl hne
    | cons a l =>
      show insertSignalsLoop post 8 (a :: l) = _
      simp only [insertSignalsLoop, hok, hex, hcs, hfc, Bool.false_eq_true, if_false,
        if_true]
  · intro hne hok hex hcs hfc
    cases rows with
    | nil => exact absurd rfl hne
    | cons a l =>
      show insertSignalsLoop post 8 (a :: l) = _
      simp only [insertSignalsLoop, hok, hex, hcs, hfc, Bool.false_eq_true, if_false,
        if_true]
  · intro hne hok hex
    cases rows with
    | nil => exact absurd rfl hne
    | cons a l => exact insertSignalsLoop_exhaust post hok hex 8 (a :: l)

/-- A backend rejection that names no column and is not a uuid error. -/
def postBoom : List Row → HResp := fun _ => HResp.mk false "boom"

/-- A one-signal batch. -/
def rowsBoom : List Row := [[("k", JVal.jnull)]]

/-- A batch whose only anomaly is a malformed uuid in its id field. -/
def rowsUuid : List Row := [[("id", JVal.jstr "notauuid"), ("company", JVal.jstr "Acme")]]

/-- A backend that rejects with a uuid-syntax error while an id field is
present — the message names no column — and accepts once it is gone. -/
def postUuidErr : List Row → HResp := fun b =>
  if b.any (fun r => hasKey r "id") then
    HResp.mk false "ERROR: invalid input syntax for type uuid: notauuid"
  else HResp.mk true ""

/-- C6 counterexample: a write rejection that is not an unknown-column
schema mismatch (its text names no column) does NOT drop the batch: the
writer prunes the id field, retries, and the batch succeeds — refuting the
claim that every non-schema rejection abandons the batch with a warning. -/
theorem C6_counterexample :
    (postUuidErr rowsUuid).ok = false ∧
    extract_missing_column_name (postUuidErr rowsUuid).text = none ∧
    supabase_insert_signals postUuidErr rowsUuid =
      ([rowsUuid, prune_rows rowsUuid "id"], InsertOutcome.success) ∧
    InsertOutcome.success ≠ InsertOutcome.dropped :=
  ⟨rfl, rfl, rfl, by decide⟩

/-- C6 witness: the concrete non-schema, non-uuid rejection drops the batch
after one attempt with the writer returning normally, and the concrete
uuid-syntax rejection retries the id-pruned batch instead of dropping. -/
theorem C6_rejection_policy_witness :
    supabase_insert_signals postBoom rowsBoom = ([rowsBoom], InsertOutcome.dropped) ∧
    supabase_insert_signals postUuidErr rowsUuid =
      (rowsUuid :: (insertSignalsLoop postUuidErr 7 (prune_rows rowsUuid "id")).1,
       (insertSignalsLoop postUuidErr 7 (prune_rows rowsUuid "id")).2) :=
  ⟨(C6_rejection_policy postBoom rowsBoom).2.1 (by simp [rowsBoom]) rfl rfl rfl,
   (C6_rejection_policy postUuidErr rowsUuid).2.2.1 "id"
     (by simp [rowsUuid]) rfl rfl rfl rfl⟩

/-- C9 (amended): the helper safe_dt is total and returns null on a null or
empty input and on any parse failure — but the Record Normalizer never
invokes it: the produced canonical row is unchanged by the upstream
posting-date field, so no row field reflects the parse at all. -/
theorem C9_safe_dt_null (parse : String → Option String) (s : String) (d : JVal)
    (company now : String) (rest : Row) :
    safe_dt parse none = none ∧
    safe_dt parse (some "") = none ∧
    (parse s = none → safe_dt parse (some s) = none) ∧
    map_job_item_to_row company now (("date_posted", d) :: rest) =
      map_job_item_to_row company now rest := by
  refine ⟨rfl, rfl, ?_, rfl⟩
  intro h
  by_cases hs : s = ""
  · simp [safe_dt, hs]
  · simp [safe_dt, hs, h]

/-- C9 witness: a concrete unparseable date yields null from safe_dt, and a
concrete row is identical with and without its posting-date field. -/
theorem C9_safe_dt_null_witness :
    safe_dt (fun _ => none) (some "February 30th") = none ∧
    map_job_item_to_row "c" "n" [("date_posted", JVal.jstr "February 30th")] =
      map_job_item_to_row "c" "n" [] := by
  have h := C9_safe_dt_null (fun _ => none) "February 30th"
    (JVal.jstr "February 30th") "c" "n" []
  exact ⟨h.2.2.1 rfl, h.2.2.2⟩

/-- The claim as stated: some field of the produced canonical row reflects
the posting-date parse — null exactly on parse failure, the parsed value on
success — for every record. -/
def claimC9 : Prop :=
  ∀ parse : String → Option String, ∃ k : String,
    ∀ (company now : String) (rest : Row) (s : String),
      (safe_dt parse (some s) = none →
        rowGet (map_job_item_to_row company now (("date_posted", JVal.jstr s) :: rest)) k
          = JVal.jnull) ∧
      (∀ t, safe_dt parse (some s) = some t →
        rowGet (map_job_item_to_row company now (("date_posted", JVal.jstr s) :: rest)) k
          = JVal.jstr t)

/-- A lenient parser that accepts exactly one date string, normalizing it to
the empty string. -/
def gooddateParse : String → Option String := fun s =>
  if s = "gooddate" then some "" else none

/-- No field of the canonical row built from the concrete record is the
empty string: ids are nonempty uuids, the title defaults, and the remaining
fields are the entity name, nulls, the run time, and a boolean. -/
theorem C9_row_value_ne_empty (k : String) :
    rowGet (map_job_item_to_row "c" "n" [("date_posted", JVal.jstr "gooddate")]) k ≠
      JVal.jstr "" := by
  intro h
  rcases rowGet_eq_of_mem _ k (JVal.jstr "") h with h0 | ⟨kv, hmem, hval⟩
  · exact JVal.noConfusion h0
  · have hrow : map_job_item_to_row "c" "n" [("date_posted", JVal.jstr "gooddate")] =
        [("id", JVal.jstr (identityResolver "c" [("date_posted", JVal.jstr "gooddate")])),
         ("job_uid", JVal.jstr (identityResolver "c" [("date_posted", JVal.jstr "gooddate")])),
         ("company", JVal.jstr "c"),
         ("title", JVal.jstr "(no title)"),
         ("location", JVal.jnull),
         ("country", JVal.jnull),
         ("first_seen_at", JVal.jstr "n"),
         ("last_seen_at", JVal.jstr "n"),
         ("is_active", JVal.jbool true)] := rfl
    rw [hrow] at hmem
    simp only [List.mem_cons, List.not_mem_nil, or_false] at hmem
    rcases hmem with h1 | h1 | h1 | h1 | h1 | h1 | h1 | h1 | h1 <;>
      rw [h1] at hval <;> dsimp only at hval
    · injection hval with he
      exact uuid5str_ne_empty _ he.symm
    · injection hval with he
      exact uuid5str_ne_empty _ he.symm
    · injection hval with he
      exact absurd he (by decide)
    · injection hval with he
      exact absurd he (by decide)
    · exact JVal.noConfusion hval
    · exact JVal.noConfusion hval
    · injection hval with he
      exact absurd he (by decide)
    · injection hval with he
      exact absurd he (by decide)
    · exact JVal.noConfusion hval

/-- C9 counterexample: the Record Normalizer never consults the posting-date
string — for any candidate field the success clause fails at the concrete
record whose date parses (to the empty string), because no row field ever
holds that parsed value. -/
theorem C9_counterexample : ¬ claimC9 := by
  intro h
  obtain ⟨k, hk⟩ := h gooddateParse
  have hs : safe_dt gooddateParse (some "gooddate") = some "" := rfl
  have h2 := (hk "c" "n" [] "gooddate").2 "" hs
  exact C9_row_value_ne_empty k h2


/-- C7 witness: the partition at the concrete sets prev = {"a"}, curr = {"b"}. -/
theorem C7_diff_partition_witness :
    Disjoint (NEW {"a"} {"b"}) (STILL_ACTIVE {"a"} {"b"}) ∧
    Disjoint (NEW {"a"} {"b"}) (REMOVED {"a"} {"b"}) ∧
    Disjoint (STILL_ACTIVE {"a"} {"b"}) (REMOVED {"a"} {"b"}) ∧
    NEW {"a"} {"b"} ∪ STILL_ACTIVE {"a"} {"b"} ∪ REMOVED {"a"} {"b"} =
      ({"a"} : Finset String) ∪ {"b"} :=
  C7_diff_partition {"a"} {"b"}

/-- C10 witness: the backfill is a no-op on the concrete row mapped from an
item with native id "7". -/
theorem C10_backfill_noop_witness :
    backfill_job_uid (map_job_item_to_row "Acme" "T" [("id", JVal.jstr "7")]) =
      map_job_item_to_row "Acme" "T" [("id", JVal.jstr "7")] :=
  (C10_backfill_noop "Acme" "T" [("id", JVal.jstr "7")]).2.2.2.2

end JobSignals
